import Mathlib

/-!
Shallow embedding of the two command-line utilities of the kardu repository:
`src/server/anki-generator.py` (flashcard JSON to Anki deck) and
`src/server/pdf-processor.py` (PDF text extraction and normalization).

External collaborators (`json.loads`, `genanki`, `fitz`, `random`) are modelled
by passing their outcomes as inputs: a parse result, per-page text results,
and the draws of the process random stream.
-/

namespace Kardu

/-! ## Embedding of src/server/anki-generator.py -/

/-- One element of the parsed JSON array.  A JSON object (which supports
`card.get(...)`) is a `mapping` from string keys to string values; any other
JSON value has no `get` method and raising is modelled by `nonMapping`. -/
inductive Card where
  | mapping : List (String × String) → Card
  | nonMapping : String → Card
deriving DecidableEq

/-- Python `card.get(key, '')` on a JSON-object record. -/
def getField (kvs : List (String × String)) (key : String) : String :=
  match kvs.find? (fun p => p.1 == key) with
  | some p => p.2
  | none => ""

/-- A `genanki.Note`: the note model identifier it was built with and its
field values in order Question, Answer, Topic, Difficulty. -/
structure Note where
  model_id : Nat
  fields : List String
deriving DecidableEq

/-- A `genanki.Deck`: identifier, title, and the notes added to it in order. -/
structure Deck where
  deck_id : Nat
  name : String
  notes : List Note
deriving DecidableEq

/-- Python `random.randrange(lo, hi)` applied to one draw `r` of the
underlying random stream: a value in `[lo, hi)` determined by `r % (hi - lo)`. -/
def randrange (lo hi r : Nat) : Nat := lo + r % (hi - lo)

/-- The note built from one mapping record: the four fields are fetched with
`card.get(key, '')` in the fixed order of the model. -/
def mkNote (model_id : Nat) (kvs : List (String × String)) : Note :=
  { model_id := model_id
    fields := [getField kvs "question", getField kvs "answer",
               getField kvs "topic", getField kvs "difficulty"] }

/-- `genanki.Note(...)` construction for one element of the parsed array:
succeeds on a mapping, raises (AttributeError, no `get` method) otherwise. -/
def buildNote (model_id : Nat) : Card → Except String Note
  | Card.mapping kvs => Except.ok (mkNote model_id kvs)
  | Card.nonMapping s => Except.error ("AttributeError: " ++ s)

/-- The note-construction loop `for card in flashcards: ... deck.add_note(note)`:
builds the notes in input order, aborting at the first failing record. -/
def buildNotes (model_id : Nat) : List Card → Except String (List Note)
  | [] => Except.ok []
  | c :: cs => do
      let n ← buildNote model_id c
      let ns ← buildNotes model_id cs
      pure (n :: ns)

/-- Observable outcome of one `create_anki_deck` invocation: process exit
code, the files written (path together with the deck serialized into them),
and the lines printed to stdout and stderr. -/
structure RunOutcome where
  exitCode : Nat
  written : List (String × Deck)
  stdoutLines : List String
  stderrLines : List String
deriving DecidableEq

/-- `create_anki_deck(flashcards_json, output_path)`.  `parsed` is the outcome
of `json.loads(flashcards_json)` (the record list, or the raised error on
input that is not well-formed JSON); `r1` and `r2` are the two successive
draws of the random stream consumed by the two `random.randrange(1 << 30, 1 << 31)`
calls.  Any exception is caught by the top-level handler, which prints to
stderr and exits with status 1; the output file is written only by
`package.write_to_file(output_path)` at the very end of the happy path. -/
def create_anki_deck (parsed : Except String (List Card)) (r1 r2 : Nat)
    (output_path : String) : RunOutcome :=
  match parsed with
  | Except.error e =>
      { exitCode := 1, written := []
        stdoutLines := [], stderrLines := ["Error creating Anki deck: " ++ e] }
  | Except.ok flashcards =>
      let deck_id := randrange (1 <<< 30) (1 <<< 31) r1
      let model_id := randrange (1 <<< 30) (1 <<< 31) r2
      match buildNotes model_id flashcards with
      | Except.error e =>
          { exitCode := 1, written := []
            stdoutLines := [], stderrLines := ["Error creating Anki deck: " ++ e] }
      | Except.ok notes =>
          { exitCode := 0
            written := [(output_path,
              { deck_id := deck_id, name := "Python Syntax Flashcards", notes := notes })]
            stdoutLines := ["Successfully created Anki deck with "
              ++ toString flashcards.length ++ " cards"]
            stderrLines := [] }

lemma except_ok_bind {α β ε : Type} (x : α) (f : α → Except ε β) :
    (Except.ok x : Except ε α) >>= f = f x := rfl

lemma except_error_bind {α β ε : Type} (e : ε) (f : α → Except ε β) :
    (Except.error e : Except ε α) >>= f = Except.error e := rfl

lemma buildNotes_cons (m : Nat) (c : Card) (cs : List Card) :
    buildNotes m (c :: cs)
      = (buildNote m c) >>= fun n =>
          (buildNotes m cs) >>= fun ns => Except.ok (n :: ns) := rfl

lemma buildNotes_map_mapping (model_id : Nat) (records : List (List (String × String))) :
    buildNotes model_id (records.map Card.mapping)
      = Except.ok (records.map (mkNote model_id)) := by
  induction records with
  | nil => rfl
  | cons r rs ih =>
      rw [List.map_cons, buildNotes_cons, List.map_cons]
      rw [show buildNote model_id (Card.mapping r) = Except.ok (mkNote model_id r) from rfl]
      rw [except_ok_bind, ih, except_ok_bind]

lemma buildNotes_model_id (m : Nat) (cs : List Card) (ns : List Note)
    (h : buildNotes m cs = Except.ok ns) : ∀ n ∈ ns, n.model_id = m := by
  induction cs generalizing ns with
  | nil =>
      simp only [buildNotes, Except.ok.injEq] at h
      subst h; simp
  | cons c cs ih =>
      cases c with
      | mapping kvs =>
          rw [buildNotes_cons,
            show buildNote m (Card.mapping kvs) = Except.ok (mkNote m kvs) from rfl,
            except_ok_bind] at h
          cases hcs : buildNotes m cs with
          | error e =>
              rw [hcs, except_error_bind] at h
              exact Except.noConfusion h
          | ok ns' =>
              rw [hcs, except_ok_bind] at h
              cases h
              intro n hn
              rcases List.mem_cons.1 hn with h1 | h1
              · subst h1; rfl
              · exact ih ns' hcs n h1
      | nonMapping s =>
          rw [buildNotes_cons,
            show buildNote m (Card.nonMapping s)
              = Except.error ("AttributeError: " ++ s) from rfl,
            except_error_bind] at h
          exact Except.noConfusion h

/-- C1: for every string that parses as a JSON array of flashcard records
(mappings), `create_anki_deck` writes a single deck whose note list is
exactly the input records mapped to notes in input order, so it holds
exactly `len(array)` notes, in input order. -/
theorem create_anki_deck_count_and_order
    (records : List (List (String × String))) (r1 r2 : Nat) (path : String) :
    (create_anki_deck (Except.ok (records.map Card.mapping)) r1 r2 path).written
      = [(path, { deck_id := randrange (1 <<< 30) (1 <<< 31) r1
                  name := "Python Syntax Flashcards"
                  notes := records.map (mkNote (randrange (1 <<< 30) (1 <<< 31) r2)) })]
    ∧ (records.map (mkNote (randrange (1 <<< 30) (1 <<< 31) r2))).length
        = records.length := by
  constructor
  · simp [create_anki_deck, buildNotes_map_mapping]
  · simp

/-- C5: a mapping record missing one of the four fields builds its note
without error, and the note field at the position of the missing key is the
empty string (Question, Answer, Topic, Difficulty at positions 0..3). -/
theorem missing_field_defaults_to_empty
    (kvs : List (String × String)) (model_id : Nat) :
    buildNote model_id (Card.mapping kvs) = Except.ok (mkNote model_id kvs)
    ∧ (kvs.find? (fun p => p.1 == "question") = none →
        (mkNote model_id kvs).fields[0]? = some "")
    ∧ (kvs.find? (fun p => p.1 == "answer") = none →
        (mkNote model_id kvs).fields[1]? = some "")
    ∧ (kvs.find? (fun p => p.1 == "topic") = none →
        (mkNote model_id kvs).fields[2]? = some "")
    ∧ (kvs.find? (fun p => p.1 == "difficulty") = none →
        (mkNote model_id kvs).fields[3]? = some "") := by
  refine ⟨rfl, ?_, ?_, ?_, ?_⟩ <;>
    · intro h
      simp [mkNote, getField, h]

/-- Witness for C5 at the concrete record `[("question", "Q")]`: the note is
built without error and the Answer field (position 1) defaults to `""`. -/
theorem missing_field_defaults_to_empty_witness :
    buildNote 7 (Card.mapping [("question", "Q")])
        = Except.ok (mkNote 7 [("question", "Q")])
    ∧ (mkNote 7 [("question", "Q")]).fields[1]? = some "" :=
  ⟨(missing_field_defaults_to_empty [("question", "Q")] 7).1,
   (missing_field_defaults_to_empty [("question", "Q")] 7).2.2.1 (by rfl)⟩

/-- C6: when `json.loads` fails (input not well-formed JSON),
`create_anki_deck` exits with status 1, writes no output file, and prints the
error to stderr. -/
theorem malformed_json_exit_one_no_file (e : String) (r1 r2 : Nat) (path : String) :
    (create_anki_deck (Except.error e) r1 r2 path).exitCode = 1
    ∧ (create_anki_deck (Except.error e) r1 r2 path).written = []
    ∧ (create_anki_deck (Except.error e) r1 r2 path).stderrLines
        = ["Error creating Anki deck: " ++ e] :=
  ⟨rfl, rfl, rfl⟩

/-- C8: both identifier draws land in `[2^30, 2^31)`; the deck written on
success carries the deck identifier from the first draw and every note the
model identifier from the second, independent draw; and the two draws are
independent in that every pair of in-range values is realized by some pair of
stream draws. -/
theorem identifiers_in_thirty_bit_range (r1 r2 : Nat) :
    (2 ^ 30 ≤ randrange (1 <<< 30) (1 <<< 31) r1
      ∧ randrange (1 <<< 30) (1 <<< 31) r1 < 2 ^ 31)
    ∧ (2 ^ 30 ≤ randrange (1 <<< 30) (1 <<< 31) r2
      ∧ randrange (1 <<< 30) (1 <<< 31) r2 < 2 ^ 31)
    ∧ (∀ a b : Nat, 2 ^ 30 ≤ a → a < 2 ^ 31 → 2 ^ 30 ≤ b → b < 2 ^ 31 →
        ∃ s1 s2 : Nat, randrange (1 <<< 30) (1 <<< 31) s1 = a
          ∧ randrange (1 <<< 30) (1 <<< 31) s2 = b)
    ∧ (∀ (cards : List Card) (path : String) (d : Deck),
        (path, d) ∈ (create_anki_deck (Except.ok cards) r1 r2 path).written →
          d.deck_id = randrange (1 <<< 30) (1 <<< 31) r1
          ∧ ∀ n ∈ d.notes, n.model_id = randrange (1 <<< 30) (1 <<< 31) r2) := by
  have e30 : ((1 : Nat) <<< 30) = 1073741824 := by norm_num [Nat.shiftLeft_eq]
  have e31 : ((1 : Nat) <<< 31) = 2147483648 := by norm_num [Nat.shiftLeft_eq]
  have p30 : ((2 : Nat) ^ 30) = 1073741824 := by norm_num
  have p31 : ((2 : Nat) ^ 31) = 2147483648 := by norm_num
  have hrange : ∀ r : Nat, 2 ^ 30 ≤ randrange (1 <<< 30) (1 <<< 31) r
      ∧ randrange (1 <<< 30) (1 <<< 31) r < 2 ^ 31 := by
    intro r
    have hlt : r % 1073741824 < 1073741824 := Nat.mod_lt _ (by norm_num)
    rw [randrange, e30, e31, p30, p31]
    omega
  refine ⟨hrange r1, hrange r2, ?_, ?_⟩
  · intro a b ha1 ha2 hb1 hb2
    rw [p30] at ha1 hb1
    rw [p31] at ha2 hb2
    refine ⟨a - 1073741824, b - 1073741824, ?_, ?_⟩ <;>
      · rw [randrange, e30, e31]
        omega
  · intro cards path d hd
    simp only [create_anki_deck, e30, e31] at hd
    cases hbn : buildNotes (randrange 1073741824 2147483648 r2) cards with
    | error e => rw [hbn] at hd; simp at hd
    | ok notes =>
        rw [hbn] at hd
        simp only [List.mem_singleton, Prod.mk.injEq] at hd
        obtain ⟨-, hd2⟩ := hd
        subst hd2
        rw [e30, e31]
        exact ⟨rfl, buildNotes_model_id _ _ _ hbn⟩

/-- Witness for C8 at concrete draws 0 and 1, concrete in-range targets, and
the concrete invocation `create_anki_deck (ok []) 0 1 "out.apkg"`. -/
theorem identifiers_in_thirty_bit_range_witness :
    (2 ^ 30 ≤ randrange (1 <<< 30) (1 <<< 31) 0
      ∧ randrange (1 <<< 30) (1 <<< 31) 0 < 2 ^ 31)
    ∧ (∃ s1 s2 : Nat, randrange (1 <<< 30) (1 <<< 31) s1 = 2 ^ 30
        ∧ randrange (1 <<< 30) (1 <<< 31) s2 = 2 ^ 31 - 1)
    ∧ (randrange (1 <<< 30) (1 <<< 31) 0 = randrange (1 <<< 30) (1 <<< 31) 0
        ∧ ∀ n ∈ ([] : List Note), n.model_id = randrange (1 <<< 30) (1 <<< 31) 1) := by
  obtain ⟨h1, _, h3, h4⟩ := identifiers_in_thirty_bit_range 0 1
  refine ⟨h1, h3 (2 ^ 30) (2 ^ 31 - 1) (by decide) (by decide) (by decide) (by decide), ?_⟩
  have h5 := h4 [] "out.apkg"
      { deck_id := randrange (1 <<< 30) (1 <<< 31) 0
        name := "Python Syntax Flashcards", notes := [] }
      (by simp [create_anki_deck, buildNotes])
  exact h5

/-- C10: the output file write is the final operation of `create_anki_deck`:
every run either fails (exit status 1) having written nothing, or succeeds
(exit status 0) and writes exactly one file, at the destination path. -/
theorem write_is_final_operation (parsed : Except String (List Card))
    (r1 r2 : Nat) (path : String) :
    ((create_anki_deck parsed r1 r2 path).exitCode = 1
      ∧ (create_anki_deck parsed r1 r2 path).written = [])
    ∨ ((create_anki_deck parsed r1 r2 path).exitCode = 0
      ∧ ∃ d : Deck, (create_anki_deck parsed r1 r2 path).written = [(path, d)]) := by
  cases parsed with
  | error e => exact Or.inl ⟨rfl, rfl⟩
  | ok flashcards =>
      simp only [create_anki_deck]
      cases hbn : buildNotes (randrange (1 <<< 30) (1 <<< 31) r2) flashcards with
      | error e => exact Or.inl ⟨rfl, rfl⟩
      | ok notes => exact Or.inr ⟨rfl, ⟨_, rfl⟩⟩

/-! ## Embedding of src/server/pdf-processor.py

Page texts and the returned text are modelled as `List Char`.  The `fitz`
collaborator's outcome is an input: the open result carries the document as
the list of its pages' `get_text()` results. -/

/-- The whitespace test of Python `str.split()` / `str.strip()` (ASCII
whitespace: space, tab, newline, carriage return, vertical tab, form feed). -/
def pyIsSpace (c : Char) : Bool :=
  c == ' ' || c == '\t' || c == '\n' || c == '\r'
    || c == Char.ofNat 11 || c == Char.ofNat 12

/-- Python `line.split()`: the maximal whitespace-free runs of the line. -/
def pySplit (s : List Char) : List (List Char) :=
  (s.splitOnP pyIsSpace).filter (fun w => !w.isEmpty)

/-- Python truthiness of `text.strip()` in `if text.strip():` — the page text
survives iff it holds at least one non-whitespace character. -/
def hasContent (s : List Char) : Bool := s.any (fun c => !pyIsSpace c)

/-- Line 31 of the source, `' '.join(line.split())`: collapse internal
whitespace runs to single spaces and trim. -/
def cleanLine (s : List Char) : List Char := List.intercalate [' '] (pySplit s)

/-- Lines 25-36 of the source: join the surviving page texts with a blank
line, split on newlines, clean every line, keep the non-empty ones, rejoin
with single newlines. -/
def cleanAll (texts : List (List Char)) : List Char :=
  List.intercalate ['\n']
    ((((List.intercalate ['\n', '\n'] texts).splitOn '\n').map cleanLine).filter
      (fun l => !l.isEmpty))

/-- Python truthiness of the optional `max_pages` argument: `None` and `0`
are falsy, every positive limit is truthy. -/
def pyTruthy : Option Nat → Bool
  | none => false
  | some m => m != 0

/-- Line 14 of the source:
`pages_to_process = min(total_pages, max_pages) if max_pages else total_pages`. -/
def pagesToProcessOf (total_pages : Nat) (max_pages : Option Nat) : Nat :=
  if pyTruthy max_pages then min total_pages (max_pages.getD 0) else total_pages

/-- The truncation notice of line 40, an f-string holding the processed page
count and the total page count. -/
def noticeChars (processed total : Nat) : List Char :=
  "\n\n[Note: Only the first ".toList ++ (toString processed).toList
    ++ " of ".toList ++ (toString total).toList
    ++ " pages were processed due to plan limits]".toList

/-- The page loop of lines 16-20: load each page in order, keeping the texts
whose stripped form is non-empty; a page whose load or text extraction raises
aborts the loop with that exception. -/
def loadPages : List (Except String (List Char)) → Except String (List (List Char))
  | [] => Except.ok []
  | Except.error e :: _ => Except.error e
  | Except.ok t :: rest =>
      (loadPages rest).map (fun ts => if hasContent t then t :: ts else ts)

/-- Observable outcome of one `extract_text_from_pdf` call: the returned text
(or the stderr-message of the exit-1 error path), whether a document handle
was opened, and whether `doc.close()` was executed. -/
structure ExtractOutcome where
  output : Except String (List Char)
  opened : Bool
  closed : Bool

/-- `extract_text_from_pdf(pdf_path, max_pages)`.  `openResult` is the
outcome of `fitz.open(pdf_path)`: the document as the list of its pages'
`get_text()` results, or the raised open error.  `doc.close()` (line 22) runs
only after the page loop finishes; an exception anywhere inside the `try`
jumps to the handler, which prints to stderr and exits 1 without reaching
`doc.close()`.  The condition of line 39 is `max_pages and total_pages >
max_pages`. -/
def extract_text_from_pdf
    (openResult : Except String (List (Except String (List Char))))
    (max_pages : Option Nat) : ExtractOutcome :=
  match openResult with
  | Except.error e =>
      { output := Except.error ("Error extracting text from PDF: " ++ e)
        opened := false, closed := false }
  | Except.ok doc =>
      let total_pages := doc.length
      let pages_to_process := pagesToProcessOf total_pages max_pages
      match loadPages (doc.take pages_to_process) with
      | Except.error e =>
          { output := Except.error ("Error extracting text from PDF: " ++ e)
            opened := true, closed := false }
      | Except.ok text_content =>
          let processed_text := cleanAll text_content
          let final_text :=
            if pyTruthy max_pages && decide (max_pages.getD 0 < total_pages)
            then processed_text ++ noticeChars pages_to_process total_pages
            else processed_text
          { output := Except.ok final_text, opened := true, closed := true }

/-- The lines of a text: the empty text has none, and otherwise they are the
segments obtained by splitting on the newline character. -/
def linesOf (s : List Char) : List (List Char) :=
  if s = [] then [] else s.splitOn '\n'

/-- No two consecutive whitespace characters anywhere in the line. -/
def noTwoWS : List Char → Bool
  | [] => true
  | [_] => true
  | a :: b :: rest => !(pyIsSpace a && pyIsSpace b) && noTwoWS (b :: rest)

/-- C2: with a positive page limit the number of loop iterations (and of
pages handed to the loop) is `min(total_pages, max_pages)`; with no limit it
is `total_pages`. -/
theorem pages_processed_count (doc : List (Except String (List Char)))
    (m : Nat) (h : 0 < m) :
    pagesToProcessOf doc.length (some m) = min doc.length m
    ∧ pagesToProcessOf doc.length none = doc.length
    ∧ (doc.take (pagesToProcessOf doc.length (some m))).length = min doc.length m
    ∧ (doc.take (pagesToProcessOf doc.length none)).length = doc.length := by
  have hm0 : m ≠ 0 := Nat.pos_iff_ne_zero.mp h
  refine ⟨by simp [pagesToProcessOf, pyTruthy, hm0], rfl, ?_, ?_⟩
  · simp only [pagesToProcessOf, pyTruthy, hm0, bne_iff_ne, ne_eq, not_false_eq_true,
      if_true, Option.getD_some, List.length_take]
    omega
  · simp [pagesToProcessOf, pyTruthy]

/-- Witness for C2 at a concrete five-page document and limit 3. -/
theorem pages_processed_count_witness :
    pagesToProcessOf
        (List.replicate 5 (Except.ok [] : Except String (List Char))).length (some 3)
      = min (List.replicate 5 (Except.ok [] : Except String (List Char))).length 3 :=
  (pages_processed_count (List.replicate 5 (Except.ok [])) 3 (by decide)).1

/-- C9: `max_pages = 0` is falsy in both guards of the source, so a zero
limit behaves exactly like no limit: all pages processed, no notice. -/
theorem max_pages_zero_is_no_limit
    (openResult : Except String (List (Except String (List Char)))) :
    extract_text_from_pdf openResult (some 0) = extract_text_from_pdf openResult none
    ∧ ∀ t : Nat, pagesToProcessOf t (some 0) = t := by
  constructor
  · cases openResult with
    | error e => rfl
    | ok doc => rfl
  · intro t; rfl

lemma loadPages_ok (pages : List (List Char)) :
    loadPages (pages.map Except.ok) = Except.ok (pages.filter hasContent) := by
  induction pages with
  | nil => rfl
  | cons p ps ih =>
      rw [List.map_cons]
      show (loadPages (ps.map Except.ok)).map
          (fun ts => if hasContent p then p :: ts else ts)
        = Except.ok ((p :: ps).filter hasContent)
      rw [ih, List.filter_cons]
      by_cases hp : hasContent p
      · simp [Except.map, hp]
      · simp [Except.map, hp]

/-- On a document all of whose pages extract successfully, the call returns
the cleaned text of the surviving pages of the processed prefix, with the
notice appended exactly when the guard of line 39 holds. -/
lemma extract_ok_pages (pages : List (List Char)) (mp : Option Nat) :
    extract_text_from_pdf (Except.ok (pages.map Except.ok)) mp
      = { output := Except.ok
            (cleanAll ((pages.take (pagesToProcessOf pages.length mp)).filter hasContent)
              ++ (if pyTruthy mp && decide (mp.getD 0 < pages.length)
                  then noticeChars (pagesToProcessOf pages.length mp) pages.length
                  else []))
          opened := true
          closed := true } := by
  simp only [extract_text_from_pdf, List.length_map, ← List.map_take, loadPages_ok]
  by_cases hc : (pyTruthy mp && decide (mp.getD 0 < pages.length)) = true
  · simp [hc]
  · simp [hc]

/-- C3: on any all-pages-readable document with a positive limit `m`:
if `m < total_pages` the returned text is the cleaned body followed by the
notice carrying the processed count `m` and the total count; if
`m >= total_pages`, or with no limit, the returned text is the cleaned body
alone, with no notice appended. -/
theorem truncation_notice_exactly_when_limited
    (pages : List (List Char)) (m : Nat) (h : 0 < m) :
    (m < pages.length →
      (extract_text_from_pdf (Except.ok (pages.map Except.ok)) (some m)).output
        = Except.ok (cleanAll ((pages.take m).filter hasContent)
            ++ noticeChars m pages.length))
    ∧ (pages.length ≤ m →
      (extract_text_from_pdf (Except.ok (pages.map Except.ok)) (some m)).output
        = Except.ok (cleanAll (pages.filter hasContent)))
    ∧ (extract_text_from_pdf (Except.ok (pages.map Except.ok)) none).output
        = Except.ok (cleanAll (pages.filter hasContent)) := by
  have hm0 : m ≠ 0 := Nat.pos_iff_ne_zero.mp h
  have htr : pyTruthy (some m) = true := by simp [pyTruthy, hm0]
  refine ⟨?_, ?_, ?_⟩
  · intro hlt
    have hk : pagesToProcessOf pages.length (some m) = m := by
      simp only [pagesToProcessOf, htr, if_true, Option.getD_some]
      omega
    rw [extract_ok_pages, hk]
    simp [htr, hlt]
  · intro hle
    have hk : pagesToProcessOf pages.length (some m) = pages.length := by
      simp only [pagesToProcessOf, htr, if_true, Option.getD_some]
      omega
    rw [extract_ok_pages, hk]
    simp [htr, Nat.not_lt.mpr hle, List.take_length]
  · rw [extract_ok_pages]
    simp [pyTruthy, pagesToProcessOf, List.take_length]

/-- Witness for C3 at the concrete two-page document `[['a'], ['b']]` with
limit 1 (notice appended) and limit 2 (no notice). -/
theorem truncation_notice_exactly_when_limited_witness :
    ((extract_text_from_pdf (Except.ok ([['a'], ['b']].map Except.ok)) (some 1)).output
      = Except.ok (cleanAll (([['a'], ['b']].take 1).filter hasContent)
          ++ noticeChars 1 [['a'], ['b']].length))
    ∧ ((extract_text_from_pdf (Except.ok ([['a'], ['b']].map Except.ok)) (some 2)).output
      = Except.ok (cleanAll ([['a'], ['b']].filter hasContent))) :=
  ⟨(truncation_notice_exactly_when_limited [['a'], ['b']] 1 (by decide)).1 (by decide),
   (truncation_notice_exactly_when_limited [['a'], ['b']] 2 (by decide)).2.1 (by decide)⟩

lemma splitOnP_chunk_not_p {α : Type} (p : α → Bool) (s : List α) :
    ∀ l ∈ s.splitOnP p, ∀ c ∈ l, p c = false := by
  induction s with
  | nil =>
      intro l hl c hc
      rw [List.splitOnP_nil] at hl
      simp only [List.mem_singleton] at hl
      subst hl
      simp at hc
  | cons x s ih =>
      intro l hl c hc
      rw [List.splitOnP_cons] at hl
      by_cases hx : p x = true
      · rw [if_pos hx] at hl
        rcases List.mem_cons.1 hl with h1 | h1
        · subst h1; simp at hc
        · exact ih l h1 c hc
      · rw [if_neg hx] at hl
        cases hsp : s.splitOnP p with
        | nil => exact absurd hsp (List.splitOnP_ne_nil p s)
        | cons hd tl =>
            rw [hsp, List.modifyHead_cons] at hl
            rcases List.mem_cons.1 hl with h1 | h1
            · subst h1
              rcases List.mem_cons.1 hc with h2 | h2
              · subst h2; exact Bool.eq_false_iff.mpr hx
              · exact ih hd (hsp ▸ List.mem_cons_self hd tl) c h2
            · exact ih l (hsp ▸ List.mem_cons.2 (Or.inr h1)) c hc

lemma cleanLine_words (s : List Char) :
    ∀ w ∈ pySplit s, w ≠ [] ∧ ∀ c ∈ w, pyIsSpace c = false := by
  intro w hw
  obtain ⟨hmem, hne⟩ := List.mem_filter.1 hw
  refine ⟨by simpa using hne, ?_⟩
  intro c hc
  exact splitOnP_chunk_not_p pyIsSpace s w hmem c hc

lemma noTwoWS_cons_of_not_space (c : Char) (t : List Char)
    (hc : pyIsSpace c = false) (ht : noTwoWS t = true) : noTwoWS (c :: t) = true := by
  cases t with
  | nil => rfl
  | cons d t' =>
      show (!(pyIsSpace c && pyIsSpace d) && noTwoWS (d :: t')) = true
      rw [hc, ht]
      rfl

lemma noTwoWS_append_words (w t : List Char)
    (hw : ∀ c ∈ w, pyIsSpace c = false) (ht : noTwoWS t = true) :
    noTwoWS (w ++ t) = true := by
  induction w with
  | nil => simpa
  | cons c w' ih =>
      exact noTwoWS_cons_of_not_space c (w' ++ t)
        (hw c (List.mem_cons_self c w'))
        (ih fun x hx => hw x (List.mem_cons_of_mem c hx))

lemma intercalate_cons_ne_nil {α : Type} (sep w : List α) (ws : List (List α))
    (h : ws ≠ []) :
    List.intercalate sep (w :: ws) = w ++ sep ++ List.intercalate sep ws := by
  cases ws with
  | nil => exact absurd rfl h
  | cons w2 ws' =>
      simp only [List.intercalate, List.intersperse_cons_cons, List.flatten_cons]
      simp [List.append_assoc]

lemma mem_intercalate_cases {α : Type} (sep : List α) (ws : List (List α)) (c : α)
    (hc : c ∈ List.intercalate sep ws) : (∃ w ∈ ws, c ∈ w) ∨ c ∈ sep := by
  induction ws with
  | nil => simp [List.intercalate] at hc
  | cons w ws ih =>
      cases ws with
      | nil =>
          rw [show List.intercalate sep [w] = w by simp [List.intercalate]] at hc
          exact Or.inl ⟨w, by simp, hc⟩
      | cons w2 ws' =>
          rw [intercalate_cons_ne_nil sep w (w2 :: ws') (by simp)] at hc
          rcases List.mem_append.1 hc with h1 | h1
          · rcases List.mem_append.1 h1 with h2 | h2
            · exact Or.inl ⟨w, List.mem_cons_self _ _, h2⟩
            · exact Or.inr h2
          · rcases ih h1 with ⟨w', hw', hcw'⟩ | h2
            · exact Or.inl ⟨w', List.mem_cons_of_mem _ hw', hcw'⟩
            · exact Or.inr h2

lemma intercalate_head_not_space (w : List Char) (ws : List (List Char))
    (hw : w ≠ []) (hwc : ∀ c ∈ w, pyIsSpace c = false) :
    ∃ c t, List.intercalate [' '] (w :: ws) = c :: t ∧ pyIsSpace c = false := by
  cases w with
  | nil => exact absurd rfl hw
  | cons c w' =>
      cases ws with
      | nil =>
          exact ⟨c, w', by simp [List.intercalate], hwc c (by simp)⟩
      | cons w2 ws' =>
          refine ⟨c, w' ++ [' '] ++ List.intercalate [' '] (w2 :: ws'), ?_,
            hwc c (by simp)⟩
          rw [intercalate_cons_ne_nil [' '] (c :: w') (w2 :: ws') (by simp)]
          simp

lemma noTwoWS_intercalate_space (ws : List (List Char))
    (hws : ∀ w ∈ ws, w ≠ [] ∧ ∀ c ∈ w, pyIsSpace c = false) :
    noTwoWS (List.intercalate [' '] ws) = true := by
  induction ws with
  | nil => rfl
  | cons w ws ih =>
      cases ws with
      | nil =>
          rw [show List.intercalate [' '] [w] = w by simp [List.intercalate]]
          simpa using noTwoWS_append_words w []
            (fun c hc => (hws w (by simp)).2 c hc) rfl
      | cons w2 ws' =>
          rw [intercalate_cons_ne_nil [' '] w (w2 :: ws') (by simp),
            List.append_assoc]
          apply noTwoWS_append_words w _ (fun c hc => (hws w (by simp)).2 c hc)
          have hrec : noTwoWS (List.intercalate [' '] (w2 :: ws')) = true :=
            ih fun w' hw' => hws w' (List.mem_cons_of_mem _ hw')
          obtain ⟨c0, t0, heq, hc0⟩ := intercalate_head_not_space w2 ws'
            (hws w2 (by simp)).1 (hws w2 (by simp)).2
          rw [heq] at hrec
          rw [heq]
          show noTwoWS (' ' :: c0 :: t0) = true
          show (!(pyIsSpace ' ' && pyIsSpace c0) && noTwoWS (c0 :: t0)) = true
          rw [hc0, hrec]
          rfl

lemma newline_not_mem_cleanLine (s : List Char) : '\n' ∉ cleanLine s := by
  intro hmem
  rcases mem_intercalate_cases [' '] (pySplit s) '\n' hmem with ⟨w, hw, hcw⟩ | hsep
  · have := (cleanLine_words s w hw).2 '\n' hcw
    simp [pyIsSpace] at this
  · simp at hsep

lemma linesOf_cleanAll (texts : List (List Char)) :
    ∀ l ∈ linesOf (cleanAll texts), l ≠ [] ∧ noTwoWS l = true := by
  have hmem : ∀ l ∈ (((List.intercalate ['\n', '\n'] texts).splitOn '\n').map
      cleanLine).filter (fun l => !l.isEmpty),
      l ≠ [] ∧ noTwoWS l = true ∧ '\n' ∉ l := by
    intro l hl
    obtain ⟨hmap, hne⟩ := List.mem_filter.1 hl
    obtain ⟨l', hl', rfl⟩ := List.mem_map.1 hmap
    exact ⟨by simpa using hne,
      noTwoWS_intercalate_space (pySplit l') (cleanLine_words l'),
      newline_not_mem_cleanLine l'⟩
  cases hc : (((List.intercalate ['\n', '\n'] texts).splitOn '\n').map
      cleanLine).filter (fun l => !l.isEmpty) with
  | nil =>
      intro l hl
      rw [cleanAll, hc] at hl
      simp [linesOf, List.intercalate] at hl
  | cons l0 ls =>
      have hmem' : ∀ l ∈ l0 :: ls, l ≠ [] ∧ noTwoWS l = true ∧ '\n' ∉ l :=
        hc ▸ hmem
      intro l hl
      rw [cleanAll, hc] at hl
      have hnonnil : List.intercalate ['\n'] (l0 :: ls) ≠ [] := by
        cases ls with
        | nil =>
            rw [show List.intercalate ['\n'] [l0] = l0 by simp [List.intercalate]]
            exact (hmem' l0 (by simp)).1
        | cons w2 ws' =>
            rw [intercalate_cons_ne_nil ['\n'] l0 (w2 :: ws') (by simp)]
            simp
      have hsplit : (List.intercalate ['\n'] (l0 :: ls)).splitOn '\n' = l0 :: ls :=
        List.splitOn_intercalate _ '\n' (fun w hw => (hmem' w hw).2.2)
          (List.cons_ne_nil _ _)
      rw [linesOf, if_neg hnonnil, hsplit] at hl
      exact ⟨(hmem' l hl).1, (hmem' l hl).2.1⟩

/-- C4 counterexample: a two-page document processed with `max_pages = 1`.
The truncation notice of line 40 begins with a blank-line separator, so the
returned text contains an empty line, refuting the claim as stated for this
concrete call. -/
theorem truncated_output_has_empty_line :
    (extract_text_from_pdf
        (Except.ok [Except.ok "hello".toList, Except.ok "world".toList])
        (some 1)).output
      = Except.ok
          "hello\n\n[Note: Only the first 1 of 2 pages were processed due to plan limits]".toList
    ∧ [] ∈ linesOf
        "hello\n\n[Note: Only the first 1 of 2 pages were processed due to plan limits]".toList := by
  constructor
  · rfl
  · decide

/-- C4 (amended): whenever the truncation notice is not appended — no limit
supplied, a falsy limit, or a limit at least the page count — every line of
the returned text is non-empty and contains no two consecutive whitespace
characters.  (When the notice is appended, the blank separator line that
precedes it is the sole violation, as the counterexample records.) -/
theorem extracted_lines_nonempty_no_double_whitespace
    (pages : List (List Char)) (mp : Option Nat)
    (hno : (pyTruthy mp && decide (mp.getD 0 < pages.length)) = false) :
    ∃ out : List Char,
      (extract_text_from_pdf (Except.ok (pages.map Except.ok)) mp).output
        = Except.ok out
      ∧ ∀ l ∈ linesOf out, l ≠ [] ∧ noTwoWS l = true := by
  refine ⟨cleanAll ((pages.take (pagesToProcessOf pages.length mp)).filter hasContent),
    ?_, linesOf_cleanAll _⟩
  rw [extract_ok_pages]
  simp [hno]

/-- Witness for the amended C4 at the concrete one-page document
`[['a', ' ', 'b']]` with no page limit. -/
theorem extracted_lines_nonempty_no_double_whitespace_witness :
    ∃ out : List Char,
      (extract_text_from_pdf (Except.ok ([['a', ' ', 'b']].map Except.ok)) none).output
        = Except.ok out
      ∧ ∀ l ∈ linesOf out, l ≠ [] ∧ noTwoWS l = true :=
  extracted_lines_nonempty_no_double_whitespace [['a', ' ', 'b']] none (by decide)

/-- C7: at the failing input — a one-page document whose page text extraction
raises - the handle is opened, the call exits through the error path, and
`doc.close()` never runs; on the success path it does run.  This contradicts
the specified requirement that the handle be released on all exit paths. -/
theorem close_skipped_on_error_path :
    extract_text_from_pdf (Except.ok [Except.error "page load failed"]) none
      = { output := Except.error "Error extracting text from PDF: page load failed"
          opened := true, closed := false }
    ∧ (extract_text_from_pdf (Except.ok [Except.ok ['a']]) none).closed = true := by
  exact ⟨rfl, rfl⟩

end Kardu
